import Mathlib

/-!
Shallow embedding of the dose-analysis and Pinnacle-export code of the
pymedphys repository, together with proofs of the specification claims.

Sources embedded:
  - packages/pymedphys_dicom/src/pymedphys_dicom/dicom/dose.py
  - packages/pymedphys_pinnacle/src/pymedphys_pinnacle/exporttool/pinnacle.py

Conventions: numpy floating-point arithmetic is modelled by exact rational
arithmetic over ℚ; 1-D numpy arrays are Lean lists; 3-D arrays are nested
lists; exceptions are modelled with Except/Option.
-/

/-! ## DVH aggregator (dose.py: find_dose_within_structure, create_dvh) -/

/-- Minimum of a list of rationals, 0 for the empty list (numpy min over
the observed dose values; only used on non-empty lists). -/
def listMin : List ℚ → ℚ
  | [] => 0
  | a :: t => t.foldl min a

/-- Maximum of a list of rationals, 0 for the empty list. -/
def listMax : List ℚ → ℚ
  | [] => 0
  | a :: t => t.foldl max a

/-- Histogram range as computed by numpy np.histogram when no explicit
range is given: (0, 1) for empty data, (min - 1/2, max + 1/2) when all
values coincide, and (min, max) otherwise. -/
def histogramRange (v : List ℚ) : ℚ × ℚ :=
  match v with
  | [] => (0, 1)
  | _ :: _ =>
    if listMin v = listMax v then (listMin v - 1/2, listMax v + 1/2)
    else (listMin v, listMax v)

/-- Edge i of n equal-width bins spanning [lo, hi]
(numpy linspace lo hi (n+1), entry i). -/
def binEdge (lo hi : ℚ) (n i : ℕ) : ℚ :=
  lo + i * (hi - lo) / n

/-- The full list of n+1 bin edges. -/
def binEdges (lo hi : ℚ) (n : ℕ) : List ℚ :=
  (List.range (n + 1)).map (binEdge lo hi n)

/-- Membership of a value in bin i of n equal-width bins over [lo, hi],
with numpy np.histogram conventions: every bin is closed on the left and
open on the right, except the last bin which is closed on both sides. -/
def inBin (lo hi : ℚ) (n i : ℕ) (x : ℚ) : Bool :=
  if i + 1 = n then
    decide (binEdge lo hi n i ≤ x) && decide (x ≤ binEdge lo hi n n)
  else
    decide (binEdge lo hi n i ≤ x) && decide (x < binEdge lo hi n (i + 1))

/-- Bin frequencies of np.histogram(v, n) over the automatically
determined range. -/
def histogramCounts (v : List ℚ) (n : ℕ) : List ℕ :=
  (List.range n).map (fun i => v.countP (inBin (histogramRange v).1 (histogramRange v).2 n i))

/-- Cumulative sums, np.cumsum: cumsum [a, b, c] = [a, a+b, a+b+c]. -/
def cumsum : List ℕ → List ℕ
  | [] => []
  | a :: t => a :: (cumsum t).map (a + ·)

/-- Boolean-mask selection dose[mask] from dose.py
find_dose_within_structure: the dose values at the mask's true voxels, in
array order (dose grid and mask flattened to matching 1-D lists). -/
def find_dose_within_structure (dose : List ℚ) (mask : List Bool) : List ℚ :=
  (dose.zip mask).filterMap (fun p => if p.2 then some p.1 else none)

/-- Embedding of dose.py create_dvh: histogram the in-structure dose
values into 100 bins, take bin midpoints, reverse-cumulative-sum the
frequencies, prepend the (0, cumulative total) anchor, and normalize to
percent. The function returns the two arrays the source hands to the
plotting call (plotting itself is out of scope). -/
def create_dvh (dose : List ℚ) (mask : List Bool) : List ℚ × List ℚ :=
  let structure_dose_values := find_dose_within_structure dose mask
  let freq := histogramCounts structure_dose_values 100
  let r := histogramRange structure_dose_values
  let bin_edge := binEdges r.1 r.2 100
  let bin_mid := List.zipWith (fun a b => (a + b) / 2) (bin_edge.drop 1) bin_edge
  let cumulative := (cumsum freq.reverse).reverse
  let bin_mid2 := 0 :: bin_mid
  let cumulative2 := cumulative.headD 0 :: cumulative
  let percent_cumulative :=
    cumulative2.map (fun c : ℕ => (c : ℚ) / ((cumulative2.headD 0 : ℕ) : ℚ) * 100)
  (bin_mid2, percent_cumulative)

/-- DVH bin midpoints exactly as the specification words them: a
synthetic 0 anchor followed by the midpoints of 100 equal-width bins
spanning the observed dose range [min, max]. -/
def dvhSpecMids (v : List ℚ) : List ℚ :=
  0 :: (List.range 100).map
    (fun i => (binEdge (listMin v) (listMax v) 100 i + binEdge (listMin v) (listMax v) 100 (i + 1)) / 2)

/-- DVH cumulative percentages exactly as the specification words them: a
synthetic 100 anchor followed by, for each bin i, the reverse cumulative
voxel count (number of in-mask values falling in bins i..99) normalized
by the total in-structure voxel count to a 0-100 scale. -/
def dvhSpecPercents (v : List ℚ) : List ℚ :=
  let counts := (List.range 100).map (fun i => v.countP (inBin (listMin v) (listMax v) 100 i))
  100 :: (List.range 100).map
    (fun i => ((counts.drop i).sum : ℚ) / (v.length : ℚ) * 100)

/-! ## Interpolation engine (dose.py: dose_from_dataset, dicom_dose_interpolate)

A DICOM RT dose dataset is modelled by its three monotonic axis coordinate
arrays (z, y, x), the raw pixel array indexed [z][y][x], and the scalar
DoseGridScaling factor. scipy RegularGridInterpolator is modelled by exact
trilinear interpolation with out-of-bounds queries rejected (bounds_error). -/

structure DoseDataset where
  zs : List ℚ
  ys : List ℚ
  xs : List ℚ
  pixel : List (List (List ℚ))
  scaling : ℚ
deriving DecidableEq

/-- Embedding of dose.py dose_from_dataset: pixel_array times
DoseGridScaling. -/
def dose_from_dataset (d : DoseDataset) : List (List (List ℚ)) :=
  d.pixel.map (fun pl => pl.map (fun row => row.map (fun v => v * d.scaling)))

/-- Index of the interpolation cell along one axis, as scipy computes it:
searchsorted-right minus one, clamped into [0, length - 2]. Nat
subtraction performs the lower clamp. -/
def interpIndex (axis : List ℚ) (q : ℚ) : ℕ :=
  min (axis.countP (fun a => decide (a ≤ q)) - 1) (axis.length - 2)

/-- Fractional position of the query inside its interpolation cell. -/
def fracWeight (axis : List ℚ) (q : ℚ) : ℚ :=
  (q - axis.getD (interpIndex axis q) 0) /
    (axis.getD (interpIndex axis q + 1) 0 - axis.getD (interpIndex axis q) 0)

/-- Linear interpolation between two sampled values. -/
def lerp (a b t : ℚ) : ℚ := a * (1 - t) + b * t

/-- Trilinear interpolation of the scaled dose array of a dataset at the
physical point (z, y, x), matching scipy RegularGridInterpolator linear
evaluation on in-bounds points. -/
def trilinear (d : DoseDataset) (z y x : ℚ) : ℚ :=
  let dose := dose_from_dataset d
  let iz := interpIndex d.zs z
  let iy := interpIndex d.ys y
  let ix := interpIndex d.xs x
  let tz := fracWeight d.zs z
  let ty := fracWeight d.ys y
  let tx := fracWeight d.xs x
  let at3 := fun a b c => ((dose.getD a []).getD b []).getD c 0
  lerp
    (lerp (lerp (at3 iz iy ix) (at3 iz iy (ix + 1)) tx)
          (lerp (at3 iz (iy + 1) ix) (at3 iz (iy + 1) (ix + 1)) tx) ty)
    (lerp (lerp (at3 (iz + 1) iy ix) (at3 (iz + 1) iy (ix + 1)) tx)
          (lerp (at3 (iz + 1) (iy + 1) ix) (at3 (iz + 1) (iy + 1) (ix + 1)) tx) ty)
    tz

/-- Query is inside the closed coordinate range of one axis. -/
def inBounds (axis : List ℚ) (q : ℚ) : Bool :=
  decide (axis.headD 0 ≤ q) && decide (q ≤ axis.getLastD 0)

/-- Embedding of dose.py dicom_dose_interpolate: the three 1-D coordinate
arrays are reshaped to (m,1,1), (1,n,1), (1,1,p) and broadcast against
each other, so the interpolator is evaluated on the outer-product grid of
query points; an out-of-bounds query raises (modelled as none). -/
def dicom_dose_interpolate (zq yq xq : List ℚ) (d : DoseDataset) :
    Option (List (List (List ℚ))) :=
  if zq.all (inBounds d.zs) && yq.all (inBounds d.ys) && xq.all (inBounds d.xs) then
    some (zq.map (fun z => yq.map (fun y => xq.map (fun x => trilinear d z y x))))
  else
    none

/-! ## Geometry resolver and profile/depth query layer
(dose.py: depth_dose, profile; rtplan helpers are outside the provided
sources and are modelled from the spec). -/

/-- Physical 3-D point in DICOM patient coordinates. -/
structure Point3 where
  x : ℚ
  y : ℚ
  z : ℚ
deriving DecidableEq

/-- RT plan data relevant to the geometry resolver. -/
structure Plan where
  gantryAngles : List ℚ
  surfaceEntryPoint : Option Point3
  sourceAxisDistance : ℚ
  sourceToSurfaceDistance : ℚ
  isocentre : Point3
deriving DecidableEq

/-- Modelled from the spec: require_gantries_be_zero of the rtplan module
(not under src/) fails unless every beam gantry angle is zero; modelled as
a boolean validity check. -/
def require_gantries_be_zero (p : Plan) : Bool :=
  p.gantryAngles.all (fun a => decide (a = 0))

/-- Modelled from the spec: get_surface_entry_point_with_fallback of the
rtplan module (not under src/). The explicit SurfaceEntryPoint field is
preferred and returned verbatim; otherwise the entry point is computed
from source-axis distance, source-to-surface distance and isocentre
position along the gantry-zero beam axis (the y axis). -/
def get_surface_entry_point_with_fallback (p : Plan) : Point3 :=
  match p.surfaceEntryPoint with
  | some sep => sep
  | none =>
    ⟨p.isocentre.x, p.isocentre.y - (p.sourceAxisDistance - p.sourceToSurfaceDistance),
      p.isocentre.z⟩

/-- Errors raised by the profile/depth query layer. -/
inductive DoseError where
  | gantryNotZero
  | invalidDirection (msg : String)
  | interpolationRange
deriving DecidableEq

/-- Message of the invalid-direction error raised by profile; it names
the four accepted direction keywords. -/
def directionErrorMessage : String :=
  "Expected direction to be equal to one of inplane, inline, crossplane, or crossline"

/-- Flattening of the nested interpolation result; on the (1,m,1) and
(n,1,1) shaped results produced by depth_dose and profile this equals
np.squeeze, the 1-D array of interpolated values. -/
def squeezeGrid (r : List (List (List ℚ))) : List ℚ :=
  (r.map (fun pl => pl.flatten)).flatten

/-- Embedding of dose.py depth_dose: validate gantry zero, resolve the
surface entry point, map each depth d to y-coordinate d + entry.y with x
and z fixed at the entry point, and interpolate. -/
def depth_dose (depths : List ℚ) (dose_dataset : DoseDataset) (plan_dataset : Plan) :
    Except DoseError (List ℚ) :=
  if require_gantries_be_zero plan_dataset then
    let sep := get_surface_entry_point_with_fallback plan_dataset
    let y := depths.map (fun dep => dep + sep.y)
    match dicom_dose_interpolate [sep.z] y [sep.x] dose_dataset with
    | some r => .ok (squeezeGrid r)
    | none => .error .interpolationRange
  else
    .error .gantryNotZero

/-- Embedding of dose.py profile: validate gantry zero, resolve the
surface entry point, fix the depth-derived y-coordinate, and vary either
the z axis (inplane/inline) or the x axis (crossplane/crossline) by the
displacements; any other direction keyword raises the invalid-direction
error. -/
def profile (displacements : List ℚ) (depth : ℚ) (direction : String)
    (dose_dataset : DoseDataset) (plan_dataset : Plan) : Except DoseError (List ℚ) :=
  if require_gantries_be_zero plan_dataset then
    let sep := get_surface_entry_point_with_fallback plan_dataset
    let y := [depth + sep.y]
    if direction = "inplane" ∨ direction = "inline" then
      match dicom_dose_interpolate (displacements.map (fun dis => dis + sep.z)) y
          [sep.x] dose_dataset with
      | some r => .ok (squeezeGrid r)
      | none => .error .interpolationRange
    else if direction = "crossplane" ∨ direction = "crossline" then
      match dicom_dose_interpolate [sep.z] y
          (displacements.map (fun dis => dis + sep.x)) dose_dataset with
      | some r => .ok (squeezeGrid r)
      | none => .error .interpolationRange
    else
      .error (.invalidDirection directionErrorMessage)
  else
    .error .gantryNotZero

/-! ## Structure mask rasterizer (dose.py: _get_indices,
get_dose_grid_structure_mask)

The output of the external pull_structure loader is taken as input: three
parallel lists whose entry i holds the x coordinates, y coordinates and z
coordinates of contour i (the source reads element 0 of each contour z
array, so contour z arrays are assumed non-empty and element 0 is modelled
with headD). matplotlib Path.contains_points is modelled by an even-odd
ray-crossing point-in-polygon test. -/

/-- Error raised when a contour z-coordinate does not select exactly one
dose-grid z slice (the source crashes converting an empty or size>1
np.where result to int). -/
inductive MaskError where
  | sliceMismatch (z : ℚ)
deriving DecidableEq

/-- Boolean voxel mask indexed [y][x][z], matching the
np.zeros((len(y_dose), len(x_dose), len(z_dose))) layout of the source. -/
abbrev MaskGrid := List (List (List Bool))

/-- Embedding of dose.py _get_indices: the indices of the contours whose
leading z value equals z_val. -/
def getIndicesList (z_structure : List (List ℚ)) (z_val : ℚ) : List ℕ :=
  (List.range z_structure.length).filter
    (fun i => decide ((z_structure.getD i []).headD 0 = z_val))

/-- Lookup of int(np.where(z_dose == z_val)[0]): succeeds only when the
dose-grid z axis holds exactly one coordinate equal to z_val. -/
def doseIndexLookup (z_dose : List ℚ) (z_val : ℚ) : Option ℕ :=
  match (List.range z_dose.length).filter (fun k => decide (z_dose.getD k 0 = z_val)) with
  | [k] => some k
  | _ => none

/-- Single edge test of the even-odd ray-crossing containment rule: does
the edge from (x1,y1) to (x2,y2) cross the horizontal ray going right
from (px,py). -/
def edgeCrosses (x1 y1 x2 y2 px py : ℚ) : Bool :=
  (decide (y1 > py) != decide (y2 > py)) &&
    decide (px < (x2 - x1) * (py - y1) / (y2 - y1) + x1)

/-- Number of polygon edges crossed by the rightward ray from p, walking
the vertex list and closing the polygon back to the first vertex. -/
def rayCrossings (verts : List (ℚ × ℚ)) (first : ℚ × ℚ) (px py : ℚ) : ℕ :=
  match verts with
  | [] => 0
  | [v] => if edgeCrosses v.1 v.2 first.1 first.2 px py then 1 else 0
  | v1 :: v2 :: rest =>
    (if edgeCrosses v1.1 v1.2 v2.1 v2.2 px py then 1 else 0) +
      rayCrossings (v2 :: rest) first px py

/-- Point-in-polygon by the even-odd rule over the closed polygon through
the vertices (x i, y i). -/
def pointInPolygon (xs ys : List ℚ) (px py : ℚ) : Bool :=
  match xs.zip ys with
  | [] => false
  | v :: rest => rayCrossings (v :: rest) v px py % 2 = 1

/-- Rasterization of one polygon against the full (x, y) grid of
dose-grid sample points, shaped [y][x] like the reshaped
contains_points result of the source. -/
def rasterSlice (xs_poly ys_poly x_dose y_dose : List ℚ) : List (List Bool) :=
  y_dose.map (fun yv => x_dose.map (fun xv => pointInPolygon xs_poly ys_poly xv yv))

/-- In-place or of one rasterized polygon into z-slice k of the mask
(mask[:, :, dose_index] |= polygon containment). -/
def orSliceIntoMask (mask : MaskGrid) (k : ℕ) (slice : List (List Bool)) : MaskGrid :=
  mask.mapIdx (fun i row =>
    row.mapIdx (fun j col =>
      col.mapIdx (fun k2 b => if k2 = k then b || (slice.getD i []).getD j false else b)))

/-- Inner loop over the contour indices sharing one z value: look up the
unique dose-grid slice for z_val, rasterize the contour polygon, and or
it into that slice; a failed lookup raises. -/
def processContourIdxs (x_structure y_structure : List (List ℚ))
    (x_dose y_dose z_dose : List ℚ) (z_val : ℚ) :
    List ℕ → MaskGrid → Except MaskError MaskGrid
  | [], mask => .ok mask
  | idx :: rest, mask =>
    match doseIndexLookup z_dose z_val with
    | none => .error (.sliceMismatch z_val)
    | some dose_index =>
      let slice := rasterSlice (x_structure.getD idx []) (y_structure.getD idx []) x_dose y_dose
      processContourIdxs x_structure y_structure x_dose y_dose z_dose z_val rest
        (orSliceIntoMask mask dose_index slice)

/-- Outer loop over the structure z values. -/
def processZVals (x_structure y_structure z_structure : List (List ℚ))
    (x_dose y_dose z_dose : List ℚ) :
    List ℚ → MaskGrid → Except MaskError MaskGrid
  | [], mask => .ok mask
  | z :: rest, mask =>
    match processContourIdxs x_structure y_structure x_dose y_dose z_dose z
        (getIndicesList z_structure z) mask with
    | .error e => .error e
    | .ok m => processZVals x_structure y_structure z_structure x_dose y_dose z_dose rest m

/-- Embedding of dose.py get_dose_grid_structure_mask over the contours
returned by pull_structure and the dose grid axes. -/
def get_dose_grid_structure_mask (x_structure y_structure z_structure : List (List ℚ))
    (x_dose y_dose z_dose : List ℚ) : Except MaskError MaskGrid :=
  processZVals x_structure y_structure z_structure x_dose y_dose z_dose
    (z_structure.map (fun item => item.headD 0))
    (List.replicate y_dose.length (List.replicate x_dose.length
      (List.replicate z_dose.length false)))

/-! ## Pinnacle external dataset facade (pinnacle.py)

The on-disk dataset read by the external pinn_to_dict reader is modelled
by a PatientRecord value carried in the facade state; the PinnaclePlan and
PinnacleImage collaborator objects are modelled by structures holding
their constructor arguments. Property reads are state transitions
returning the value and the updated facade; ghost counters count how many
times each derived view has actually been computed. Python truthiness of
the cached fields is modelled exactly: the cached patient-info dict is
non-empty whenever set (FullName and DOB keys are always added before it
is stored), while a cached plan or image list is falsy when empty. -/

/-- Python list.split for a single-character separator, over char lists:
"".split(c) is [""], and separators delimit possibly empty fields. -/
def splitOnChar (sep : Char) : List Char → List (List Char)
  | [] => [[]]
  | c :: rest =>
    let r := splitOnChar sep rest
    if c = sep then [] :: r
    else
      match r with
      | [] => [[c]]
      | h :: t => (c :: h) :: t

/-- Zero-padding of a single date component: a one-character component
gets a leading 0. -/
def padDOB (num : List Char) : List Char :=
  if num.length = 1 then '0' :: num else num

/-- Date-of-birth splitting of pinnacle.py patient_info: split on dash if
a dash is present, else on slash if a slash is present, else on space. -/
def splitDOBChars (chars : List Char) : List (List Char) :=
  if chars.contains '-' then splitOnChar '-' chars
  else if chars.contains '/' then splitOnChar '/' chars
  else splitOnChar ' ' chars

/-- Embedding of the DOB normalization loop of pinnacle.py patient_info:
fold over the split components, left-padding one-character components
with 0 and appending to the accumulated string. -/
def normalizeDOB (dobstr : String) : String :=
  ⟨(splitDOBChars dobstr.data).foldl (fun dob num => dob ++ padDOB num) []⟩

/-- Cached-field concatenation as the claim words it: split (dash, then
slash, then space priority), left-pad each single-character component
with 0, and concatenate the components with no separator. -/
def dobSpecConcat (dobstr : String) : String :=
  ⟨((splitDOBChars dobstr.data).map padDOB).flatten⟩

/-- One entry of the PlanList of the patient record. -/
structure PlanEntry where
  PlanID : String
deriving DecidableEq

/-- One header record of an image, as read from image.info. -/
structure ImageHeaderRec where
  SeriesUID : String
deriving DecidableEq

/-- One entry of the ImageSetList of the patient record, carrying the
image.info header records its PinnacleImage will expose. -/
structure ImageEntry where
  imageInfo : List ImageHeaderRec
deriving DecidableEq

/-- The mapping returned by the external pinn_to_dict reader for the
Patient file. -/
structure PatientRecord where
  LastName : String
  FirstName : String
  MiddleName : String
  DateOfBirth : String
  PlanList : List PlanEntry
  ImageSetList : List ImageEntry
deriving DecidableEq

/-- The patient-info view: the raw record plus the synthesized FullName
and DOB keys (so the stored dict always has at least two keys and is
never Python-falsy). -/
structure PatientInfo where
  record : PatientRecord
  FullName : String
  DOB : String
deriving DecidableEq

/-- A PinnaclePlan collaborator object, modelled by its constructor
arguments (dataset path and plan entry). -/
structure PinnaclePlan where
  path : String
  planInfo : PlanEntry
deriving DecidableEq

/-- A PinnacleImage collaborator object, modelled by its constructor
arguments; image_info exposes the header records of its entry. -/
structure PinnacleImage where
  path : String
  image : ImageEntry
deriving DecidableEq

/-- First-header series UID of an image, im.image_info[0].SeriesUID; the
empty string stands in for the out-of-domain empty header list. -/
def headSeriesUID (im : PinnacleImage) : String :=
  match im.image.imageInfo with
  | [] => ""
  | r :: _ => r.SeriesUID

/-- The Pinnacle facade state: root path, the on-disk patient record the
external reader would return, the three cached fields (None when never
stored), and ghost computation counters. -/
structure Pinnacle where
  path : String
  diskPatient : PatientRecord
  patientInfoCache : Option PatientInfo
  plansCache : Option (List PinnaclePlan)
  imagesCache : Option (List PinnacleImage)
  nPatientInfoComputes : ℕ
  nPlansComputes : ℕ
  nImagesComputes : ℕ
deriving DecidableEq

/-- A freshly constructed facade for a dataset path: all cached fields
are None. -/
def Pinnacle.init (path : String) (disk : PatientRecord) : Pinnacle :=
  ⟨path, disk, none, none, none, 0, 0, 0⟩

/-- Python truthiness test of a cached list field: None and the empty
list are both falsy. -/
def cacheFalsy {α : Type} : Option (List α) → Bool
  | none => true
  | some l => l.isEmpty

/-- Computation body of patient_info: read the record and add the
FullName and DOB keys. -/
def computePatientInfo (r : PatientRecord) : PatientInfo :=
  { record := r
    FullName := r.LastName ++ "^" ++ r.FirstName ++ "^" ++ r.MiddleName ++ "^"
    DOB := normalizeDOB r.DateOfBirth }

/-- Embedding of the pinnacle.py patient_info property: compute and store
on first access (the stored dict is never falsy afterwards, since the
FullName and DOB keys are always added), return the cache otherwise. -/
def Pinnacle.patient_info (p : Pinnacle) : PatientInfo × Pinnacle :=
  match p.patientInfoCache with
  | some info => (info, p)
  | none =>
    let info := computePatientInfo p.diskPatient
    (info, { p with
              patientInfoCache := some info
              nPatientInfoComputes := p.nPatientInfoComputes + 1 })

/-- Embedding of the pinnacle.py plans property: when the cached field is
falsy (None or the empty list), read patient_info and build one
PinnaclePlan per PlanList entry, store and return; otherwise return the
cache. -/
def Pinnacle.plans (p : Pinnacle) : List PinnaclePlan × Pinnacle :=
  if cacheFalsy p.plansCache then
    let infoAndState := p.patient_info
    let ps := infoAndState.1.record.PlanList.map
      (fun pl => PinnaclePlan.mk (p.path ++ "/Plan_" ++ pl.PlanID) pl)
    (ps, { infoAndState.2 with
            plansCache := some ps
            nPlansComputes := infoAndState.2.nPlansComputes + 1 })
  else
    (p.plansCache.getD [], p)

/-- Embedding of the pinnacle.py images property: same caching shape as
plans, building one PinnacleImage per ImageSetList entry. -/
def Pinnacle.images (p : Pinnacle) : List PinnacleImage × Pinnacle :=
  if cacheFalsy p.imagesCache then
    let infoAndState := p.patient_info
    let ims := infoAndState.1.record.ImageSetList.map
      (fun im => PinnacleImage.mk p.path im)
    (ims, { infoAndState.2 with
            imagesCache := some ims
            nImagesComputes := infoAndState.2.nImagesComputes + 1 })
  else
    (p.imagesCache.getD [], p)

/-- Scan loop of pinnacle.py export_image: walk the image list in order;
for each image read its first header record (IndexError on an empty
header list, modelled as none); when the series_uid argument is non-empty
and the record UID matches, convert that image and stop. Returns the list
of images converted by the scan. -/
def scanImages (series_uid : String) : List PinnacleImage → Option (List PinnacleImage)
  | [] => some []
  | im :: rest =>
    match im.image.imageInfo with
    | [] => none
    | rec0 :: _ =>
      if series_uid.length > 0 && rec0.SeriesUID = series_uid then some [im]
      else scanImages series_uid rest

/-- Embedding of pinnacle.py export_image: run the UID scan over the
images view, then independently convert the explicitly supplied image
object when one is given. The returned list holds the images passed to
convert_image, in call order, alongside the facade state after the
images property access. -/
def Pinnacle.export_image (p : Pinnacle) (image : Option PinnacleImage)
    (series_uid : String) : Option (List PinnacleImage × Pinnacle) :=
  let imsAndState := p.images
  match scanImages series_uid imsAndState.1 with
  | none => none
  | some scanned => some (scanned ++ image.toList, imsAndState.2)

/-! ## Theorems: DOB normalization and the Pinnacle facade -/

theorem foldl_padDOB_append (l : List (List Char)) (acc : List Char) :
    l.foldl (fun dob num => dob ++ padDOB num) acc = acc ++ (l.map padDOB).flatten := by
  induction l generalizing acc with
  | nil => simp
  | cons n t ih => simp [ih, List.append_assoc]

/-- Claim C6: DOB normalization splits on dash, else slash, else space
(in that priority order), left-pads every single-character component with
0, and concatenates the components with no separator; the three example
inputs all normalize to 19900102. -/
theorem claim_C6_dob_normalization :
    (∀ s : String, normalizeDOB s = dobSpecConcat s) ∧
    normalizeDOB ("1990-01-02") = "19900102" ∧
    normalizeDOB ("1990/1/2") = "19900102" ∧
    normalizeDOB ("1990 1 2") = "19900102" := by
  refine ⟨?_, by decide, by decide, by decide⟩
  intro s
  unfold normalizeDOB dobSpecConcat
  rw [foldl_padDOB_append]
  rfl

def pinnEmptyRecord : PatientRecord :=
  ⟨"", "", "", "", [], []⟩

def pinnNoPlans : Pinnacle := Pinnacle.init ("root") pinnEmptyRecord

/-- Claim C2 counterexample: on a facade whose patient record has an
empty PlanList, the plans view is recomputed by every access (the cached
empty list is Python-falsy), so after two accesses the computation
counter is 2, contradicting computed-at-most-once. -/
theorem claim_C2_counterexample :
    ((Pinnacle.plans (Pinnacle.plans pinnNoPlans).2).2).nPlansComputes = 2 ∧
    ¬ ((Pinnacle.plans (Pinnacle.plans pinnNoPlans).2).2).nPlansComputes ≤ 1 := by
  exact ⟨by decide, by decide⟩

/-- Claim C2 amended: patient_info is computed at most once per facade
instance (a second access returns the cached value and leaves the state
unchanged); plans and images are computed at most once provided the
computed list is non-empty — an empty computed list is treated as
not-yet-loaded by the truthiness check and is recomputed on every
access. -/
theorem claim_C2_amended (p : Pinnacle) :
    Pinnacle.patient_info (Pinnacle.patient_info p).2 =
      ((Pinnacle.patient_info p).1, (Pinnacle.patient_info p).2) ∧
    ((Pinnacle.plans p).1 ≠ [] →
      Pinnacle.plans (Pinnacle.plans p).2 = ((Pinnacle.plans p).1, (Pinnacle.plans p).2)) ∧
    ((Pinnacle.images p).1 ≠ [] →
      Pinnacle.images (Pinnacle.images p).2 = ((Pinnacle.images p).1, (Pinnacle.images p).2)) := by
  refine ⟨?_, ?_, ?_⟩
  · cases h : p.patientInfoCache with
    | some info => simp [Pinnacle.patient_info, h]
    | none => simp [Pinnacle.patient_info, h]
  · intro hne
    cases hf : cacheFalsy p.plansCache with
    | true =>
      simp only [Pinnacle.plans, hf, if_true] at hne ⊢
      have : cacheFalsy (some ((Pinnacle.patient_info p).1.record.PlanList.map
          (fun pl => PinnaclePlan.mk (p.path ++ "/Plan_" ++ pl.PlanID) pl))) = false := by
        simp only [cacheFalsy]
        rw [List.isEmpty_eq_false]
        exact hne
      simp [this]
    | false =>
      simp [Pinnacle.plans, hf]
  · intro hne
    cases hf : cacheFalsy p.imagesCache with
    | true =>
      simp only [Pinnacle.images, hf, if_true] at hne ⊢
      have : cacheFalsy (some ((Pinnacle.patient_info p).1.record.ImageSetList.map
          (fun im => PinnacleImage.mk p.path im))) = false := by
        simp only [cacheFalsy]
        rw [List.isEmpty_eq_false]
        exact hne
      simp [this]
    | false =>
      simp [Pinnacle.images, hf]

def pinnOneRecord : PatientRecord :=
  ⟨"Doe", "Jane", "", "1990-01-02", [⟨"1"⟩], [⟨[⟨"suid1"⟩]⟩]⟩

def pinnOne : Pinnacle := Pinnacle.init ("root") pinnOneRecord

theorem claim_C2_amended_witness :
    ((Pinnacle.plans pinnOne).1 ≠ [] ∧ (Pinnacle.images pinnOne).1 ≠ []) ∧
    Pinnacle.patient_info (Pinnacle.patient_info pinnOne).2 =
      ((Pinnacle.patient_info pinnOne).1, (Pinnacle.patient_info pinnOne).2) ∧
    Pinnacle.plans (Pinnacle.plans pinnOne).2 =
      ((Pinnacle.plans pinnOne).1, (Pinnacle.plans pinnOne).2) ∧
    Pinnacle.images (Pinnacle.images pinnOne).2 =
      ((Pinnacle.images pinnOne).1, (Pinnacle.images pinnOne).2) := by
  have h := claim_C2_amended pinnOne
  exact ⟨⟨by decide, by decide⟩, h.1, h.2.1 (by decide), h.2.2 (by decide)⟩

theorem strLengthPos {s : String} (h : s ≠ "") : 0 < s.length := by
  cases s with
  | mk data =>
    cases data with
    | nil => exact absurd rfl h
    | cons c cs => simp [String.length]

theorem scanImages_eq_find (imgs : List PinnacleImage) (uid : String)
    (hn : ∀ im ∈ imgs, im.image.imageInfo ≠ []) (hu : uid ≠ "") :
    scanImages uid imgs = some (imgs.find? (fun im => headSeriesUID im == uid)).toList := by
  induction imgs with
  | nil => simp [scanImages]
  | cons im rest ih =>
    have hne := hn im (by simp)
    cases hrec : im.image.imageInfo with
    | nil => exact absurd hrec hne
    | cons r t =>
      have hlen : uid.length > 0 := strLengthPos hu
      by_cases heq : r.SeriesUID = uid
      · simp [scanImages, hrec, headSeriesUID, heq, hlen, List.find?]
      · have : headSeriesUID im = r.SeriesUID := by simp [headSeriesUID, hrec]
        simp only [scanImages, hrec]
        rw [if_neg (by simp [heq])]
        rw [ih (fun i hi => hn i (by simp [hi]))]
        have hfind : (headSeriesUID im == uid) = false := by
          rw [this]; simpa using heq
        simp [List.find?, hfind]

theorem scanImages_empty_uid (imgs : List PinnacleImage)
    (hn : ∀ im ∈ imgs, im.image.imageInfo ≠ []) :
    scanImages ("") imgs = some [] := by
  induction imgs with
  | nil => simp [scanImages]
  | cons im rest ih =>
    have hne := hn im (by simp)
    cases hrec : im.image.imageInfo with
    | nil => exact absurd hrec hne
    | cons r t =>
      simp only [scanImages, hrec]
      rw [if_neg (by simp [String.length])]
      exact ih (fun i hi => hn i (by simp [hi]))

/-- Claim C9: with a non-empty series_uid, export_image scans the images
view in order, converts the first image whose first header record
SeriesUID equals series_uid (find? of the list) and stops there; and
independently appends the conversion of the explicitly supplied image
object when one is given, so one call may perform both exports. -/
theorem claim_C9_export_image (p : Pinnacle) (image : Option PinnacleImage)
    (series_uid : String)
    (hn : ∀ im ∈ (Pinnacle.images p).1, im.image.imageInfo ≠ [])
    (hu : series_uid ≠ "") :
    Pinnacle.export_image p image series_uid =
      some (((Pinnacle.images p).1.find? (fun im => headSeriesUID im == series_uid)).toList
        ++ image.toList, (Pinnacle.images p).2) := by
  simp only [Pinnacle.export_image]
  rw [scanImages_eq_find _ _ hn hu]

def imgHeaderA : ImageHeaderRec := ⟨"1.2.3"⟩

def imgRecordTwoMatches : PatientRecord :=
  ⟨"Doe", "Jane", "", "1990-01-02", [],
    [⟨[imgHeaderA]⟩, ⟨[imgHeaderA]⟩]⟩

def pinnTwoImages : Pinnacle := Pinnacle.init ("root") imgRecordTwoMatches

def explicitImage : PinnacleImage := ⟨"other", ⟨[⟨"9.9"⟩]⟩⟩

theorem claim_C9_export_image_witness :
    (∀ im ∈ (Pinnacle.images pinnTwoImages).1, im.image.imageInfo ≠ []) ∧
    ("1.2.3" : String) ≠ "" ∧
    Pinnacle.export_image pinnTwoImages (some explicitImage) ("1.2.3") =
      some (((Pinnacle.images pinnTwoImages).1.find?
          (fun im => headSeriesUID im == "1.2.3")).toList
        ++ (some explicitImage).toList, (Pinnacle.images pinnTwoImages).2) := by
  exact ⟨by decide, by decide,
    claim_C9_export_image pinnTwoImages (some explicitImage) ("1.2.3") (by decide) (by decide)⟩

/-- Claim C10: with the default empty series_uid, the UID scan converts
nothing — even when some image's first header record has an empty
SeriesUID — and only the explicitly supplied image object, when present,
is exported. -/
theorem claim_C10_export_image_empty_uid (p : Pinnacle) (image : Option PinnacleImage)
    (hn : ∀ im ∈ (Pinnacle.images p).1, im.image.imageInfo ≠ []) :
    Pinnacle.export_image p image ("") =
      some (image.toList, (Pinnacle.images p).2) := by
  simp only [Pinnacle.export_image]
  rw [scanImages_empty_uid _ hn]
  simp

def imgRecordEmptyUID : PatientRecord :=
  ⟨"Doe", "Jane", "", "1990-01-02", [], [⟨[⟨""⟩]⟩]⟩

def pinnEmptyUIDImage : Pinnacle := Pinnacle.init ("root") imgRecordEmptyUID

theorem claim_C10_export_image_empty_uid_witness :
    (∀ im ∈ (Pinnacle.images pinnEmptyUIDImage).1, im.image.imageInfo ≠ []) ∧
    Pinnacle.export_image pinnEmptyUIDImage (some explicitImage) ("") =
      some ((some explicitImage).toList, (Pinnacle.images pinnEmptyUIDImage).2) := by
  exact ⟨by decide,
    claim_C10_export_image_empty_uid pinnEmptyUIDImage (some explicitImage) (by decide)⟩

/-! ## Theorems: profile and depth_dose -/

/-- Claim C5: for every gantry-zero plan, dose dataset, depth and each of
the four valid direction keywords, profile at displacement 0 and that
depth returns exactly what depth_dose returns at that depth (the same
Except value: equal doses on success and the same error otherwise). -/
theorem claim_C5_profile_zero_displacement (d : DoseDataset) (plan : Plan) (depth : ℚ)
    (direction : String)
    (hg : require_gantries_be_zero plan = true)
    (hdir : direction = "inplane" ∨ direction = "inline" ∨
      direction = "crossplane" ∨ direction = "crossline") :
    profile [0] depth direction d plan = depth_dose [depth] d plan := by
  have hz : [(0 : ℚ)].map (fun dis => dis + (get_surface_entry_point_with_fallback plan).z)
      = [(get_surface_entry_point_with_fallback plan).z] := by simp
  have hx : [(0 : ℚ)].map (fun dis => dis + (get_surface_entry_point_with_fallback plan).x)
      = [(get_surface_entry_point_with_fallback plan).x] := by simp
  rcases hdir with h | h | h | h <;>
    simp [profile, depth_dose, h, hg, hz, hx]

def planGantryZero : Plan :=
  { gantryAngles := [0]
    surfaceEntryPoint := some ⟨0, 0, 0⟩
    sourceAxisDistance := 1000
    sourceToSurfaceDistance := 900
    isocentre := ⟨0, 100, 0⟩ }

def doseCube : DoseDataset :=
  { zs := [0, 10]
    ys := [0, 10]
    xs := [0, 10]
    pixel := [[[1, 1], [1, 1]], [[1, 1], [1, 1]]]
    scaling := 2 }

theorem claim_C5_profile_zero_displacement_witness :
    require_gantries_be_zero planGantryZero = true ∧
    profile [0] 5 ("crossline") doseCube planGantryZero =
      depth_dose [5] doseCube planGantryZero := by
  constructor
  · decide
  · exact claim_C5_profile_zero_displacement doseCube planGantryZero 5 ("crossline")
      (by decide) (by simp)

def planGantryNinety : Plan :=
  { gantryAngles := [90]
    surfaceEntryPoint := some ⟨0, 0, 0⟩
    sourceAxisDistance := 1000
    sourceToSurfaceDistance := 900
    isocentre := ⟨0, 100, 0⟩ }

/-- Claim C7 counterexample: profile validates the gantry angle before it
inspects the direction keyword, so on a plan with a 90 degree gantry a
call with the invalid direction keyword diagonal fails with the
unsupported-geometry (gantry) error, not with the invalid-direction
error the claim requires for every such call. -/
theorem claim_C7_counterexample :
    profile [0] 5 ("diagonal") doseCube planGantryNinety = .error .gantryNotZero ∧
    (Except.error DoseError.gantryNotZero : Except DoseError (List ℚ)) ≠
      .error (.invalidDirection directionErrorMessage) := by
  constructor
  · have hg : require_gantries_be_zero planGantryNinety = false := by decide
    simp [profile, hg]
  · intro h
    injection h with h2
    exact absurd h2 (by decide)

/-- Claim C7 amended: for every gantry-zero plan, any direction keyword
outside inplane, inline, crossplane, crossline makes profile fail with
the invalid-direction error, whose message names the four accepted
values; it never silently defaults to an axis. (On a plan whose gantry
angles are not all zero the call fails earlier, with the gantry error.) -/
theorem claim_C7_amended (d : DoseDataset) (plan : Plan) (displacements : List ℚ)
    (depth : ℚ) (direction : String)
    (hg : require_gantries_be_zero plan = true)
    (hdir : direction ≠ "inplane" ∧ direction ≠ "inline" ∧
      direction ≠ "crossplane" ∧ direction ≠ "crossline") :
    profile displacements depth direction d plan =
      .error (.invalidDirection directionErrorMessage) ∧
    (∃ s t : String, directionErrorMessage = s ++ "inplane" ++ t) ∧
    (∃ s t : String, directionErrorMessage = s ++ "inline" ++ t) ∧
    (∃ s t : String, directionErrorMessage = s ++ "crossplane" ++ t) ∧
    (∃ s t : String, directionErrorMessage = s ++ "crossline" ++ t) := by
  refine ⟨?_, ⟨"Expected direction to be equal to one of ",
      ", inline, crossplane, or crossline", rfl⟩,
    ⟨"Expected direction to be equal to one of inplane, ",
      ", crossplane, or crossline", rfl⟩,
    ⟨"Expected direction to be equal to one of inplane, inline, ",
      ", or crossline", rfl⟩,
    ⟨"Expected direction to be equal to one of inplane, inline, crossplane, or ",
      "", rfl⟩⟩
  obtain ⟨h1, h2, h3, h4⟩ := hdir
  simp [profile, hg, h1, h2, h3, h4]

theorem claim_C7_amended_witness :
    require_gantries_be_zero planGantryZero = true ∧
    profile [0] 5 ("diagonal") doseCube planGantryZero =
      .error (.invalidDirection directionErrorMessage) := by
  constructor
  · decide
  · exact (claim_C7_amended doseCube planGantryZero [0] 5 ("diagonal") (by decide)
      (by refine ⟨?_, ?_, ?_, ?_⟩ <;> decide)).1

/-! ## Theorems: interpolation engine -/

/-- Claim C3: for in-bounds 1-D target coordinate arrays z (length m),
y (length n), x (length p), dicom_dose_interpolate returns the m-by-n-by-p
outer-product grid whose entry (i, j, k) is the trilinear interpolation
of the scaled dose at the physical point (z i, y j, x k); the three axes
broadcast independently and are never zipped into a point list. -/
theorem claim_C3_outer_product_grid (d : DoseDataset) (zq yq xq : List ℚ)
    (hz : ∀ q ∈ zq, inBounds d.zs q = true)
    (hy : ∀ q ∈ yq, inBounds d.ys q = true)
    (hx : ∀ q ∈ xq, inBounds d.xs q = true) :
    ∃ r, dicom_dose_interpolate zq yq xq d = some r ∧
      r.length = zq.length ∧
      (∀ i, i < zq.length → (r.getD i []).length = yq.length) ∧
      (∀ i j, i < zq.length → j < yq.length →
        ((r.getD i []).getD j []).length = xq.length) ∧
      (∀ i j k, i < zq.length → j < yq.length → k < xq.length →
        ((r.getD i []).getD j []).getD k 0 =
          trilinear d (zq.getD i 0) (yq.getD j 0) (xq.getD k 0)) := by
  have hc : (zq.all (inBounds d.zs) && yq.all (inBounds d.ys) && xq.all (inBounds d.xs))
      = true := by
    simp only [Bool.and_eq_true, List.all_eq_true]
    exact ⟨⟨hz, hy⟩, hx⟩
  refine ⟨zq.map (fun z => yq.map (fun y => xq.map (fun x => trilinear d z y x))),
    ?_, by simp, ?_, ?_, ?_⟩
  · simp [dicom_dose_interpolate, hc]
  · intro i hi
    simp [List.getD_eq_getElem?_getD, List.getElem?_map, List.getElem?_eq_getElem, hi]
  · intro i j hi hj
    simp [List.getD_eq_getElem?_getD, List.getElem?_map, List.getElem?_eq_getElem, hi, hj]
  · intro i j k hi hj hk
    simp [List.getD_eq_getElem?_getD, List.getElem?_map, List.getElem?_eq_getElem,
      hi, hj, hk]

theorem claim_C3_outer_product_grid_witness :
    (∀ q ∈ ([0, 10] : List ℚ), inBounds doseCube.zs q = true) ∧
    (∃ r, dicom_dose_interpolate [0, 10] [0] [0, 10, 5] doseCube = some r ∧
      r.length = ([0, 10] : List ℚ).length ∧
      (∀ i, i < ([0, 10] : List ℚ).length → (r.getD i []).length = ([0] : List ℚ).length) ∧
      (∀ i j, i < ([0, 10] : List ℚ).length → j < ([0] : List ℚ).length →
        ((r.getD i []).getD j []).length = ([0, 10, 5] : List ℚ).length) ∧
      (∀ i j k, i < ([0, 10] : List ℚ).length → j < ([0] : List ℚ).length →
        k < ([0, 10, 5] : List ℚ).length →
        ((r.getD i []).getD j []).getD k 0 =
          trilinear doseCube (([0, 10] : List ℚ).getD i 0) (([0] : List ℚ).getD j 0)
            (([0, 10, 5] : List ℚ).getD k 0))) := by
  constructor
  · decide
  · exact claim_C3_outer_product_grid doseCube [0, 10] [0] [0, 10, 5]
      (by decide) (by decide) (by decide)

/-! ## Theorems: structure mask rasterizer -/

theorem processContourIdxs_error (xs ys : List (List ℚ)) (xd yd zd : List ℚ) (z : ℚ)
    (idxs : List ℕ) (mask : MaskGrid) (hidx : idxs ≠ [])
    (hl : doseIndexLookup zd z = none) :
    processContourIdxs xs ys xd yd zd z idxs mask = .error (.sliceMismatch z) := by
  cases idxs with
  | nil => exact absurd rfl hidx
  | cons a rest => simp [processContourIdxs, hl]

theorem processContourIdxs_ok (xs ys : List (List ℚ)) (xd yd zd : List ℚ) (z : ℚ)
    (k : ℕ) (hl : doseIndexLookup zd z = some k) (idxs : List ℕ) (mask : MaskGrid) :
    ∃ m, processContourIdxs xs ys xd yd zd z idxs mask = .ok m := by
  induction idxs generalizing mask with
  | nil => exact ⟨mask, rfl⟩
  | cons a rest ih =>
    simp only [processContourIdxs, hl]
    exact ih _

theorem processZVals_error (xs ys zs : List (List ℚ)) (xd yd zd : List ℚ)
    (zvals : List ℚ) (mask : MaskGrid)
    (hwit : ∀ z ∈ zvals, getIndicesList zs z ≠ [])
    (hbad : ∃ z ∈ zvals, doseIndexLookup zd z = none) :
    ∃ z, processZVals xs ys zs xd yd zd zvals mask = .error (.sliceMismatch z) := by
  induction zvals generalizing mask with
  | nil =>
    obtain ⟨z, hz, _⟩ := hbad
    cases hz
  | cons z rest ih =>
    cases hl : doseIndexLookup zd z with
    | none =>
      refine ⟨z, ?_⟩
      simp only [processZVals]
      rw [processContourIdxs_error xs ys xd yd zd z _ mask (hwit z (by simp)) hl]
    | some k =>
      obtain ⟨m, hm⟩ := processContourIdxs_ok xs ys xd yd zd z k hl
        (getIndicesList zs z) mask
      have hbad2 : ∃ z2 ∈ rest, doseIndexLookup zd z2 = none := by
        obtain ⟨z2, hz2mem, hz2⟩ := hbad
        rcases List.mem_cons.1 hz2mem with rfl | hmem
        · rw [hl] at hz2
          cases hz2
        · exact ⟨z2, hmem, hz2⟩
      obtain ⟨zbad, hzb⟩ := ih m (fun w hw => hwit w (by simp [hw])) hbad2
      refine ⟨zbad, ?_⟩
      simp only [processZVals, hm]
      exact hzb

/-- Claim C4: whenever the structure's contour set holds a contour whose
z-coordinate is not exactly equal to any dose-grid z-coordinate,
get_dose_grid_structure_mask fails with the slice-mismatch error (the
int conversion of an empty np.where result raises); it never skips the
slice and never substitutes a nearest z slice. -/
theorem claim_C4_slice_mismatch_error (xs ys zs : List (List ℚ)) (xd yd zd : List ℚ)
    (hcontours : ∀ item ∈ zs, item ≠ [])
    (hbad : ∃ item ∈ zs, item.headD 0 ∉ zd) :
    ∃ z, get_dose_grid_structure_mask xs ys zs xd yd zd =
      .error (.sliceMismatch z) := by
  unfold get_dose_grid_structure_mask
  apply processZVals_error
  · intro z hz
    obtain ⟨item, hitem, rfl⟩ := List.mem_map.1 hz
    obtain ⟨i, hi, hieq⟩ := List.getElem_of_mem hitem
    apply List.ne_nil_of_mem (a := i)
    apply List.mem_filter.2
    refine ⟨List.mem_range.2 hi, ?_⟩
    simp [List.getD_eq_getElem?_getD, List.getElem?_eq_getElem hi, hieq]
  · obtain ⟨item, hitem, hnot⟩ := hbad
    refine ⟨item.headD 0, List.mem_map_of_mem _ hitem, ?_⟩
    unfold doseIndexLookup
    have hfil : (List.range zd.length).filter
        (fun k => decide (zd.getD k 0 = item.headD 0)) = [] := by
      apply List.filter_eq_nil_iff.2
      intro k hk
      simp only [decide_eq_true_eq]
      intro heq
      have hkl := List.mem_range.1 hk
      rw [List.getD_eq_getElem _ _ hkl] at heq
      exact hnot (heq ▸ List.getElem_mem hkl)
    rw [hfil]

theorem claim_C4_slice_mismatch_error_witness :
    (∀ item ∈ ([[5]] : List (List ℚ)), item ≠ []) ∧
    (∃ item ∈ ([[5]] : List (List ℚ)), item.headD 0 ∉ ([0, 10] : List ℚ)) ∧
    (∃ z, get_dose_grid_structure_mask [[0, 1, 1, 0]] [[0, 0, 1, 1]] [[5]]
      [0, 10] [0, 10] [0, 10] = .error (.sliceMismatch z)) := by
  refine ⟨by decide, by decide, ?_⟩
  exact claim_C4_slice_mismatch_error [[0, 1, 1, 0]] [[0, 0, 1, 1]] [[5]]
    [0, 10] [0, 10] [0, 10] (by decide) (by decide)

/-! ## Theorems: DVH aggregator -/

theorem foldl_min_le_init (t : List ℚ) (a : ℚ) : t.foldl min a ≤ a := by
  induction t generalizing a with
  | nil => simp
  | cons b t ih => exact le_trans (ih (min a b)) (min_le_left a b)

theorem foldl_min_le_mem (t : List ℚ) (a x : ℚ) (hx : x ∈ t) : t.foldl min a ≤ x := by
  induction t generalizing a with
  | nil => cases hx
  | cons b t ih =>
    rcases List.mem_cons.1 hx with rfl | h
    · exact le_trans (foldl_min_le_init t (min a x)) (min_le_right a x)
    · exact ih (min a b) h

theorem init_le_foldl_max (t : List ℚ) (a : ℚ) : a ≤ t.foldl max a := by
  induction t generalizing a with
  | nil => simp
  | cons b t ih => exact le_trans (le_max_left a b) (ih (max a b))

theorem mem_le_foldl_max (t : List ℚ) (a x : ℚ) (hx : x ∈ t) : x ≤ t.foldl max a := by
  induction t generalizing a with
  | nil => cases hx
  | cons b t ih =>
    rcases List.mem_cons.1 hx with rfl | h
    · exact le_trans (le_max_right a x) (init_le_foldl_max t (max a x))
    · exact ih (max a b) h

theorem listMin_le_mem (v : List ℚ) (x : ℚ) (hx : x ∈ v) : listMin v ≤ x := by
  cases v with
  | nil => cases hx
  | cons a t =>
    rcases List.mem_cons.1 hx with rfl | h
    · exact foldl_min_le_init t x
    · exact foldl_min_le_mem t a x h

theorem mem_le_listMax (v : List ℚ) (x : ℚ) (hx : x ∈ v) : x ≤ listMax v := by
  cases v with
  | nil => cases hx
  | cons a t =>
    rcases List.mem_cons.1 hx with rfl | h
    · exact init_le_foldl_max t x
    · exact mem_le_foldl_max t a x h

theorem listMin_le_listMax (v : List ℚ) (hv : v ≠ []) : listMin v ≤ listMax v := by
  cases v with
  | nil => exact absurd rfl hv
  | cons a t =>
    exact le_trans (listMin_le_mem (a :: t) a (by simp)) (mem_le_listMax (a :: t) a (by simp))

theorem histogramRange_lo_le (v : List ℚ) (x : ℚ) (hx : x ∈ v) :
    (histogramRange v).1 ≤ x := by
  cases v with
  | nil => cases hx
  | cons a t =>
    have h1 := listMin_le_mem (a :: t) x hx
    by_cases heq : listMin (a :: t) = listMax (a :: t) <;>
      simp only [histogramRange, heq, if_true, if_false, reduceIte] <;> linarith

theorem histogramRange_le_hi (v : List ℚ) (x : ℚ) (hx : x ∈ v) :
    x ≤ (histogramRange v).2 := by
  cases v with
  | nil => cases hx
  | cons a t =>
    have h1 := mem_le_listMax (a :: t) x hx
    by_cases heq : listMin (a :: t) = listMax (a :: t) <;>
      simp only [histogramRange, heq, if_true, if_false, reduceIte] <;> linarith

theorem histogramRange_lo_lt_hi (v : List ℚ) (hv : v ≠ []) :
    (histogramRange v).1 < (histogramRange v).2 := by
  cases v with
  | nil => exact absurd rfl hv
  | cons a t =>
    have h1 := listMin_le_listMax (a :: t) (by simp)
    by_cases heq : listMin (a :: t) = listMax (a :: t) <;>
      simp only [histogramRange, heq, if_true, if_false, reduceIte] <;>
      first
        | linarith
        | exact lt_of_le_of_ne h1 heq

theorem histogramRange_of_lt (v : List ℚ) (hv : v ≠ [])
    (hlt : listMin v < listMax v) :
    histogramRange v = (listMin v, listMax v) := by
  cases v with
  | nil => exact absurd rfl hv
  | cons a t => simp only [histogramRange, ne_of_lt hlt, if_false, reduceIte]

theorem binEdge_le_iff (lo hi x : ℚ) (n i : ℕ) (hn : 0 < n) (hlh : lo < hi) :
    binEdge lo hi n i ≤ x ↔ (i : ℚ) ≤ (x - lo) * n / (hi - lo) := by
  have hnq : (0 : ℚ) < n := by exact_mod_cast hn
  have hd : (0 : ℚ) < hi - lo := by linarith
  rw [le_div_iff₀ hd]
  unfold binEdge
  constructor
  · intro h
    have h2 : (i : ℚ) * (hi - lo) / n ≤ x - lo := by linarith
    have := (div_le_iff₀ hnq).1 h2
    linarith
  · intro h
    have h2 : (i : ℚ) * (hi - lo) / n ≤ x - lo := by
      rw [div_le_iff₀ hnq]
      linarith
    linarith

theorem lt_binEdge_iff (lo hi x : ℚ) (n i : ℕ) (hn : 0 < n) (hlh : lo < hi) :
    x < binEdge lo hi n i ↔ (x - lo) * n / (hi - lo) < (i : ℚ) := by
  have h := binEdge_le_iff lo hi x n i hn hlh
  constructor
  · intro hlt
    by_contra hcon
    push_neg at hcon
    exact absurd (h.2 hcon) (not_le.2 hlt)
  · intro hlt
    by_contra hcon
    push_neg at hcon
    exact absurd (h.1 hcon) (not_le.2 hlt)

theorem binEdge_last (lo hi : ℚ) (n : ℕ) (hn : 0 < n) : binEdge lo hi n n = hi := by
  have hnq : (n : ℚ) ≠ 0 := by
    have : (0 : ℚ) < n := by exact_mod_cast hn
    linarith
  unfold binEdge
  rw [mul_div_cancel_left₀ _ hnq]
  ring

theorem inBin_exists_unique (lo hi x : ℚ) (n : ℕ) (hn : 0 < n) (hlh : lo < hi)
    (hx1 : lo ≤ x) (hx2 : x ≤ hi) :
    ∃ i0, i0 < n ∧ inBin lo hi n i0 x = true ∧
      ∀ j, j < n → inBin lo hi n j x = true → j = i0 := by
  have hd : (0 : ℚ) < hi - lo := by linarith
  have hnq : (0 : ℚ) < n := by exact_mod_cast hn
  by_cases hxh : x = hi
  · refine ⟨n - 1, by omega, ?_, ?_⟩
    · have hlast : (n - 1) + 1 = n := by omega
      simp only [inBin, hlast, if_true, reduceIte]
      have he1 : binEdge lo hi n (n - 1) ≤ x := by
        rw [binEdge_le_iff lo hi x n (n - 1) hn hlh]
        have ht : (x - lo) * n / (hi - lo) = (n : ℚ) := by
          rw [hxh]
          field_simp
        rw [ht]
        have : ((n - 1 : ℕ) : ℚ) ≤ (n : ℚ) := by
          have : (n - 1 : ℕ) ≤ n := by omega
          exact_mod_cast this
        exact this
      have he2 : x ≤ binEdge lo hi n n := by
        rw [binEdge_last lo hi n hn]
        exact hx2
      simp [he1, he2]
    · intro j hj hbin
      by_cases hjl : j + 1 = n
      · omega
      · exfalso
        simp only [inBin, hjl, if_false, reduceIte, Bool.and_eq_true, decide_eq_true_eq] at hbin
        have := (lt_binEdge_iff lo hi x n (j + 1) hn hlh).1 hbin.2
        have ht : (x - lo) * n / (hi - lo) = (n : ℚ) := by
          rw [hxh]
          field_simp
        rw [ht] at this
        have : (n : ℚ) < ((j + 1 : ℕ) : ℚ) := by exact_mod_cast this
        have : n < j + 1 := by exact_mod_cast this
        omega
  · have hxlt : x < hi := lt_of_le_of_ne hx2 hxh
    set t : ℚ := (x - lo) * n / (hi - lo) with hts
    have ht0 : 0 ≤ t := by
      apply div_nonneg
      · have : (0 : ℚ) ≤ x - lo := by linarith
        positivity
      · linarith
    have htn : t < n := by
      rw [hts, div_lt_iff₀ hd]
      have : (x - lo) < (hi - lo) := by linarith
      nlinarith
    set k : ℤ := ⌊t⌋ with hks
    have hk0 : 0 ≤ k := Int.floor_nonneg.2 ht0
    have hkn : k < n := by
      rw [hks]
      rw [Int.floor_lt]
      exact_mod_cast htn
    refine ⟨k.toNat, by omega, ?_, ?_⟩
    · have hcast : ((k.toNat : ℕ) : ℚ) = (k : ℚ) := by
        have := Int.toNat_of_nonneg hk0
        exact_mod_cast this
      have he1 : binEdge lo hi n k.toNat ≤ x := by
        rw [binEdge_le_iff lo hi x n k.toNat hn hlh, hcast, ← hts]
        exact_mod_cast Int.floor_le t
      have he2 : x < binEdge lo hi n (k.toNat + 1) := by
        rw [lt_binEdge_iff lo hi x n (k.toNat + 1) hn hlh]
        have h1 : ((k.toNat + 1 : ℕ) : ℚ) = (k : ℚ) + 1 := by
          push_cast
          rw [hcast]
        rw [h1, hks]
        exact Int.lt_floor_add_one t
      by_cases hlast : k.toNat + 1 = n
      · simp only [inBin, hlast, if_true, reduceIte]
        have he2b : x ≤ binEdge lo hi n n := by
          rw [binEdge_last lo hi n hn]
          exact hx2
        simp [he1, he2b]
      · simp only [inBin, hlast, if_false, reduceIte]
        simp [he1, he2]
    · intro j hj hbin
      have hedge : binEdge lo hi n j ≤ x := by
        by_cases hjl : j + 1 = n <;>
          simp only [inBin, hjl, if_true, if_false, reduceIte, Bool.and_eq_true,
            decide_eq_true_eq] at hbin <;>
          exact hbin.1
      have hjt : (j : ℚ) ≤ t := by
        rw [hts]
        exact (binEdge_le_iff lo hi x n j hn hlh).1 hedge
      have hjk : (j : ℤ) ≤ k := by
        rw [hks]
        exact Int.le_floor.2 (by exact_mod_cast hjt)
      by_cases hjl : j + 1 = n
      · omega
      · simp only [inBin, hjl, if_false, reduceIte, Bool.and_eq_true,
          decide_eq_true_eq] at hbin
        have := (lt_binEdge_iff lo hi x n (j + 1) hn hlh).1 hbin.2
        have hkj : k < (j : ℤ) + 1 := by
          rw [hks, Int.floor_lt, hts]
          exact_mod_cast this
        omega

theorem countP_range_eq_one (p : ℕ → Bool) (n i0 : ℕ) (h1 : i0 < n) (h2 : p i0 = true)
    (h3 : ∀ j, j < n → p j = true → j = i0) : (List.range n).countP p = 1 := by
  rw [List.countP_eq_length_filter]
  have hmem : i0 ∈ (List.range n).filter p := List.mem_filter.2 ⟨List.mem_range.2 h1, h2⟩
  have hall : ∀ b ∈ (List.range n).filter p, b = i0 := by
    intro b hb
    have hb2 := List.mem_filter.1 hb
    exact h3 b (List.mem_range.1 hb2.1) hb2.2
  have hnd : ((List.range n).filter p).Nodup := (List.nodup_range n).filter p
  have hrep := List.eq_replicate_of_mem hall
  rw [hrep] at hnd
  have hle := List.nodup_replicate.1 hnd
  have hpos : 0 < ((List.range n).filter p).length :=
    List.length_pos.2 (List.ne_nil_of_mem hmem)
  omega

theorem sum_map_add_nat {α : Type} (l : List α) (f g : α → ℕ) :
    (l.map (fun a => f a + g a)).sum = (l.map f).sum + (l.map g).sum := by
  induction l with
  | nil => simp
  | cons a t ih =>
    simp only [List.map_cons, List.sum_cons, ih]
    omega

theorem countP_eq_sum_map {α : Type} (l : List α) (p : α → Bool) :
    l.countP p = (l.map (fun a => if p a then 1 else 0)).sum := by
  induction l with
  | nil => simp
  | cons a t ih =>
    rw [List.countP_cons, List.map_cons, List.sum_cons, ih]
    by_cases hp : p a <;> simp [hp] <;> omega

theorem sum_counts_eq_length (v : List ℚ) (n : ℕ) (P : ℕ → ℚ → Bool)
    (hu : ∀ x ∈ v, (List.range n).countP (fun i => P i x) = 1) :
    ((List.range n).map (fun i => v.countP (P i))).sum = v.length := by
  induction v with
  | nil => simp
  | cons a t ih =>
    have hstep : ((List.range n).map (fun i => List.countP (P i) (a :: t))).sum =
        ((List.range n).map (fun i => t.countP (P i))).sum +
          ((List.range n).map (fun i => if P i a then 1 else 0)).sum := by
      rw [← sum_map_add_nat]
      exact congrArg List.sum
        (List.map_congr_left (fun i _ => List.countP_cons (P i) a t))
    rw [hstep, ← countP_eq_sum_map, hu a (by simp),
      ih (fun x hx => hu x (by simp [hx]))]
    simp [Nat.add_comm]

theorem sum_histogramCounts (v : List ℚ) (n : ℕ) (hn : 0 < n) (hv : v ≠ []) :
    (histogramCounts v n).sum = v.length := by
  unfold histogramCounts
  apply sum_counts_eq_length
  intro x hx
  obtain ⟨i0, hi0, hbin, huniq⟩ := inBin_exists_unique (histogramRange v).1
    (histogramRange v).2 x n hn (histogramRange_lo_lt_hi v hv)
    (histogramRange_lo_le v x hx) (histogramRange_le_hi v x hx)
  exact countP_range_eq_one _ n i0 hi0 hbin huniq

theorem cumsum_length (l : List ℕ) : (cumsum l).length = l.length := by
  induction l with
  | nil => rfl
  | cons a t ih => simp [cumsum, ih]

theorem cumsum_append_singleton (s : List ℕ) (a : ℕ) :
    cumsum (s ++ [a]) = cumsum s ++ [s.sum + a] := by
  induction s with
  | nil => simp [cumsum]
  | cons b s2 ih =>
    show b :: (cumsum (s2 ++ [a])).map (b + ·) = _
    rw [ih]
    simp [cumsum, List.map_append, List.sum_cons, Nat.add_assoc]

theorem revCumsum_cons (a : ℕ) (t : List ℕ) :
    (cumsum (a :: t).reverse).reverse = (a + t.sum) :: (cumsum t.reverse).reverse := by
  rw [List.reverse_cons, cumsum_append_singleton, List.reverse_append]
  simp [List.sum_reverse, Nat.add_comm]

theorem revCumsum_getD (l : List ℕ) (i : ℕ) :
    ((cumsum l.reverse).reverse).getD i 0 = (l.drop i).sum := by
  induction l generalizing i with
  | nil => simp [cumsum]
  | cons a t ih =>
    rw [revCumsum_cons]
    cases i with
    | zero => simp
    | succ i2 => simpa using ih i2

theorem revCumsum_length (l : List ℕ) :
    ((cumsum l.reverse).reverse).length = l.length := by
  simp [cumsum_length]

theorem revCumsum_mem_le_sum (l : List ℕ) (x : ℕ)
    (hx : x ∈ (cumsum l.reverse).reverse) : x ≤ l.sum := by
  induction l with
  | nil => simp [cumsum] at hx
  | cons a t ih =>
    rw [revCumsum_cons] at hx
    rcases List.mem_cons.1 hx with rfl | h
    · simp
    · have := ih h
      simp only [List.sum_cons]
      omega

theorem revCumsum_pairwise (l : List ℕ) :
    ((cumsum l.reverse).reverse).Pairwise (fun a b => b ≤ a) := by
  induction l with
  | nil => simp [cumsum]
  | cons a t ih =>
    rw [revCumsum_cons]
    refine List.pairwise_cons.2 ⟨?_, ih⟩
    intro b hb
    have := revCumsum_mem_le_sum t b hb
    omega

theorem create_dvh_snd_eq (dose : List ℚ) (mask : List Bool) :
    (create_dvh dose mask).2 =
      (((cumsum (histogramCounts (find_dose_within_structure dose mask) 100).reverse).reverse).headD 0 ::
        (cumsum (histogramCounts (find_dose_within_structure dose mask) 100).reverse).reverse).map
        (fun c : ℕ => (c : ℚ) /
          ((((cumsum (histogramCounts (find_dose_within_structure dose mask) 100).reverse).reverse).headD 0 : ℕ) : ℚ) *
            100) := by
  simp only [create_dvh, List.headD_cons]

theorem create_dvh_fst_eq (dose : List ℚ) (mask : List Bool) :
    (create_dvh dose mask).1 =
      0 :: List.zipWith (fun a b => (a + b) / 2)
        ((binEdges (histogramRange (find_dose_within_structure dose mask)).1
          (histogramRange (find_dose_within_structure dose mask)).2 100).drop 1)
        (binEdges (histogramRange (find_dose_within_structure dose mask)).1
          (histogramRange (find_dose_within_structure dose mask)).2 100) := by
  simp only [create_dvh]

theorem headD_eq_getD_zero {α : Type} (l : List α) (d : α) : l.headD d = l.getD 0 d := by
  cases l <;> rfl

theorem percentList_props (freq : List ℕ) (hpos : 0 < freq.sum) :
    ((((cumsum freq.reverse).reverse).headD 0 :: (cumsum freq.reverse).reverse).map
      (fun c : ℕ => (c : ℚ) /
        ((((cumsum freq.reverse).reverse).headD 0 : ℕ) : ℚ) * 100)).Pairwise
        (fun a b => b ≤ a) ∧
    ((((cumsum freq.reverse).reverse).headD 0 :: (cumsum freq.reverse).reverse).map
      (fun c : ℕ => (c : ℚ) /
        ((((cumsum freq.reverse).reverse).headD 0 : ℕ) : ℚ) * 100)).headD 0 = 100 := by
  have hc0 : ((cumsum freq.reverse).reverse).headD 0 = freq.sum := by
    rw [headD_eq_getD_zero]
    simpa using revCumsum_getD freq 0
  have hT : (0 : ℚ) < ((((cumsum freq.reverse).reverse).headD 0 : ℕ) : ℚ) := by
    rw [hc0]
    exact_mod_cast hpos
  constructor
  · have hpair : (((cumsum freq.reverse).reverse).headD 0 ::
        (cumsum freq.reverse).reverse).Pairwise (fun a b : ℕ => b ≤ a) := by
      refine List.pairwise_cons.2 ⟨?_, ?_⟩
      · intro b hb
        rw [hc0]
        exact revCumsum_mem_le_sum freq b hb
      · exact revCumsum_pairwise freq
    refine hpair.map _ ?_
    intro a b hba
    have hcast : ((b : ℕ) : ℚ) ≤ ((a : ℕ) : ℚ) := by exact_mod_cast hba
    have hdiv := (div_le_div_right hT).2 hcast
    nlinarith
  · simp only [List.map_cons, List.headD_cons]
    rw [div_self (ne_of_gt hT)]
    norm_num

/-- Claim C8: for every dose grid and structure whose rasterized mask
selects at least one voxel, the DVH cumulative percent sequence of
create_dvh is monotonically non-increasing and its first entry equals
100 exactly. -/
theorem claim_C8_dvh_monotone_and_anchor (dose : List ℚ) (mask : List Bool)
    (hne : find_dose_within_structure dose mask ≠ []) :
    ((create_dvh dose mask).2).Pairwise (fun a b => b ≤ a) ∧
    ((create_dvh dose mask).2).headD 0 = 100 := by
  rw [create_dvh_snd_eq]
  apply percentList_props
  rw [sum_histogramCounts _ 100 (by norm_num) hne]
  exact List.length_pos.2 hne

theorem claim_C8_dvh_monotone_and_anchor_witness :
    find_dose_within_structure [1, 2, 3] [true, true, false] ≠ [] ∧
    ((create_dvh [1, 2, 3] [true, true, false]).2).Pairwise (fun a b => b ≤ a) ∧
    ((create_dvh [1, 2, 3] [true, true, false]).2).headD 0 = 100 := by
  have h := claim_C8_dvh_monotone_and_anchor [1, 2, 3] [true, true, false] (by decide)
  exact ⟨by decide, h⟩

theorem histogramCounts_length (v : List ℚ) (n : ℕ) :
    (histogramCounts v n).length = n := by
  simp [histogramCounts]

theorem histogramCounts_of_lt (v : List ℚ) (hne : v ≠ [])
    (hlt : listMin v < listMax v) (n : ℕ) :
    histogramCounts v n =
      (List.range n).map (fun i => v.countP (inBin (listMin v) (listMax v) n i)) := by
  unfold histogramCounts
  rw [histogramRange_of_lt v hne hlt]

theorem midsList_eq (lo hi : ℚ) (n : ℕ) :
    List.zipWith (fun a b => (a + b) / 2) ((binEdges lo hi n).drop 1) (binEdges lo hi n) =
      (List.range n).map (fun i => (binEdge lo hi n i + binEdge lo hi n (i + 1)) / 2) := by
  refine List.ext_getElem ?_ ?_
  · simp [binEdges]
  · intro i h1 h2
    simp only [List.getElem_zipWith, List.getElem_drop, binEdges, List.getElem_map,
      List.getElem_range]
    rw [Nat.add_comm 1 i]
    ring

theorem percentList_eq (freq : List ℕ) (n L : ℕ) (hlen : freq.length = n)
    (hsum : freq.sum = L) (hpos : 0 < L) :
    (((cumsum freq.reverse).reverse.headD 0 :: (cumsum freq.reverse).reverse).map
      (fun c : ℕ => (c : ℚ) /
        ((((cumsum freq.reverse).reverse).headD 0 : ℕ) : ℚ) * 100)) =
      100 :: (List.range n).map
        (fun i => ((freq.drop i).sum : ℚ) / (L : ℚ) * 100) := by
  have hc0 : ((cumsum freq.reverse).reverse).headD 0 = L := by
    rw [headD_eq_getD_zero]
    rw [revCumsum_getD freq 0]
    simpa using hsum
  refine List.ext_getElem ?_ ?_
  · simp [cumsum_length, hlen]
  · intro i h1 h2
    cases i with
    | zero =>
      simp only [List.map_cons, List.getElem_cons_zero]
      have hL : ((L : ℕ) : ℚ) ≠ 0 := by
        have : (0 : ℚ) < ((L : ℕ) : ℚ) := by exact_mod_cast hpos
        linarith
      rw [hc0, div_self hL]
      norm_num
    | succ i2 =>
      simp only [List.map_cons, List.getElem_cons_succ, List.getElem_map,
        List.getElem_range]
      have hlt2 : i2 < ((cumsum freq.reverse).reverse).length := by
        have := h1
        simp [cumsum_length] at this
        simp [cumsum_length]
        omega
      rw [← List.getD_eq_getElem _ 0 hlt2, revCumsum_getD freq i2, hc0]

/-- Claim C1: for every dose grid and mask with a non-empty, non-constant
set of in-mask dose values, create_dvh returns exactly the pair described
by the specification: bin midpoints of 100 equal-width bins spanning the
observed dose range with a synthetic 0 anchor prepended, and the reverse
cumulative voxel counts normalized by the total in-structure voxel count
to a 0-100 percent scale with a synthetic 100 anchor prepended. -/
theorem claim_C1_create_dvh_spec (dose : List ℚ) (mask : List Bool)
    (hne : find_dose_within_structure dose mask ≠ [])
    (hlt : listMin (find_dose_within_structure dose mask) <
      listMax (find_dose_within_structure dose mask)) :
    create_dvh dose mask =
      (dvhSpecMids (find_dose_within_structure dose mask),
        dvhSpecPercents (find_dose_within_structure dose mask)) := by
  refine Prod.ext ?_ ?_
  · rw [create_dvh_fst_eq]
    simp only [histogramRange_of_lt _ hne hlt, dvhSpecMids]
    exact congrArg (List.cons 0)
      (midsList_eq (listMin (find_dose_within_structure dose mask))
        (listMax (find_dose_within_structure dose mask)) 100)
  · rw [create_dvh_snd_eq]
    simp only [dvhSpecPercents]
    rw [← histogramCounts_of_lt _ hne hlt]
    exact percentList_eq (histogramCounts (find_dose_within_structure dose mask) 100)
      100 (find_dose_within_structure dose mask).length
      (histogramCounts_length _ 100)
      (sum_histogramCounts _ 100 (by norm_num) hne)
      (List.length_pos.2 hne)

theorem claim_C1_create_dvh_spec_witness :
    find_dose_within_structure [1, 2, 3] [true, true, false] ≠ [] ∧
    listMin (find_dose_within_structure [1, 2, 3] [true, true, false]) <
      listMax (find_dose_within_structure [1, 2, 3] [true, true, false]) ∧
    create_dvh [1, 2, 3] [true, true, false] =
      (dvhSpecMids (find_dose_within_structure [1, 2, 3] [true, true, false]),
        dvhSpecPercents (find_dose_within_structure [1, 2, 3] [true, true, false])) := by
  refine ⟨by decide, by decide, ?_⟩
  exact claim_C1_create_dvh_spec [1, 2, 3] [true, true, false] (by decide) (by decide)
